import Mathlib

/-!
Verification development for the retag-backend marketplace server.

The definitions below are a shallow embedding of the TypeScript sources:
  * `src/utils/aiService.ts` — the pricing pipeline (Gemini price suggestion
    with deterministic fallback);
  * `src/routes/sell.ts` (unnamed part_003) — the product lifecycle handlers
    (submit, accept-offer, reject-offer, admin review, edit-price);
  * `src/routes/payments.ts` (in user.ts bundle) — order creation, payment
    verification (settlement) and the admin complete-order override.

Mongoose documents are modelled as Lean structures, the Mongo collections as
lists, and each Express handler as a pure function from the database state and
the request data to the new database state paired with the HTTP response
outcome.  JavaScript `Math.round` is modelled exactly (round half toward
positive infinity) and JS truthiness checks on numbers (`x || undefined`)
are modelled by explicit zero tests.  Timestamps (`reviewed_at`, `listed_at`,
`created_at`) and the external network calls are irrelevant to the verified
properties and are omitted / abstracted: the HMAC used by the payment gateway
is passed as an opaque function parameter, and the Gemini call outcome is an
explicit oracle argument.
-/

namespace Retag

/-- JavaScript `Math.round`: round half toward positive infinity. -/
def jsRound (x : Rat) : Int := Int.floor (x + 1/2)

/-- Substring search over character lists (JS `String.prototype.includes`
with a non-empty pattern). -/
def containsSub : List Char → List Char → Bool
  | [], _ => false
  | h :: t, pat => pat.isPrefixOf (h :: t) || containsSub t pat

/-- JS `s.toLowerCase()` as a character list. -/
def lowerChars (s : String) : List Char := s.data.map Char.toLower

/-- JS `x || undefined` on an optional number: `0` is falsy and collapses
to `undefined`. -/
def zeroToNone (x : Option Rat) : Option Rat :=
  match x with
  | some v => if v = 0 then none else some v
  | none => none

/-- JS `x || undefined` on an optional integer. -/
def intZeroToNone (x : Option Int) : Option Int :=
  match x with
  | some v => if v = 0 then none else some v
  | none => none

/-! ## Pricing pipeline (`src/utils/aiService.ts`) -/

/-- Market-price reference produced by `fetchSerpPrice`. -/
structure SerpPrices where
  min : Nat
  max : Nat
  avg : Nat
deriving DecidableEq, Repr

/-- `PriceSuggestion` interface of `aiService.ts`. -/
structure PriceSuggestion where
  suggested_price : Rat
  reasoning : String
  market_comparison : String
  confidence_score : Rat
  factors : List String
deriving DecidableEq, Repr

/-- `productDetails.brand?.toLowerCase().includes('nike')`. -/
def brandIncludesNike (brand : Option String) : Bool :=
  match brand with
  | some b => containsSub (lowerChars b) "nike".data
  | none => false

/-- `GeminiService.fallbackPriceSuggestion` (aiService.ts lines 300–316).
`serpPrices && serpPrices.avg` is JS-truthy exactly when the reference is
present with a nonzero average. -/
def fallbackPriceSuggestion (brand : Option String) (serpPrices : Option SerpPrices) :
    PriceSuggestion :=
  let basePrice : Rat :=
    match serpPrices with
    | some sp =>
        if sp.avg ≠ 0 then ((jsRound ((sp.avg : Rat) * (1/2)) : Int) : Rat)
        else if brandIncludesNike brand then 800 else 500
    | none => if brandIncludesNike brand then 800 else 500
  { suggested_price := basePrice
    reasoning := "Based on standard market rates for second-hand clothing (typically 40-60% of new price)"
    market_comparison := "Similar to other pre-owned items in the market"
    confidence_score := (6 : Rat) / 10
    factors := ["brand reputation", "general condition", "market demand"] }

/-- The structured fields Gemini may return inside its JSON blob. -/
structure ParsedGemini where
  suggested_price : Option Rat
  reasoning : Option String
  market_comparison : Option String
  confidence_score : Option Rat
  factors : Option (List String)
deriving DecidableEq, Repr

/-- JS `x || default` on an optional number (`0` is falsy). -/
def ratOrDefault (x : Option Rat) (d : Rat) : Rat :=
  match x with
  | some v => if v = 0 then d else v
  | none => d

/-- JS `x || default` on an optional string (`""` is falsy). -/
def strOrDefault (x : Option String) (d : String) : String :=
  match x with
  | some v => if v = "" then d else v
  | none => d

/-- `GeminiService.parseGeminiResponse` (aiService.ts lines 277–297): the
argument is `some parsed` when the response text contained a parsable JSON
object, `none` when there was no JSON match or `JSON.parse` threw; in the
latter case the code falls back with an empty `productDetails` (no brand)
and no market reference. -/
def parseGeminiResponse (parsed : Option ParsedGemini) : PriceSuggestion :=
  match parsed with
  | some p =>
      { suggested_price := ratOrDefault p.suggested_price 500
        reasoning := strOrDefault p.reasoning "Based on market analysis"
        market_comparison := strOrDefault p.market_comparison "Comparable to similar items"
        confidence_score := ratOrDefault p.confidence_score ((7 : Rat) / 10)
        factors := p.factors.getD ["brand", "condition", "market demand"] }
  | none => fallbackPriceSuggestion none none

/-- Outcome of the generative reasoning call in `suggestPriceWithSerp`:
either the signal was unavailable (missing API key, or the HTTP request
threw) or it answered and the answer parsed (`response (some p)`) or was
unparsable (`response none`). -/
inductive GeminiOutcome
  | unavailable
  | response (parsed : Option ParsedGemini)
deriving DecidableEq, Repr

/-- `GeminiService.suggestPriceWithSerp` (aiService.ts lines 234–259),
with the network call abstracted into the `GeminiOutcome` oracle. -/
def suggestPriceWithSerp (brand : Option String) (serpPrices : Option SerpPrices)
    (gemini : GeminiOutcome) : PriceSuggestion :=
  match gemini with
  | .unavailable => fallbackPriceSuggestion brand serpPrices
  | .response parsed => parseGeminiResponse parsed

/-! ## Product data model (`src/models/Product.ts`) -/

/-- `status: 'pending' | 'approved' | 'rejected' | 'listed' | 'sold'`. -/
inductive Status
  | pending
  | approved
  | rejected
  | listed
  | sold
deriving DecidableEq, Repr

/-- `ImageAnalysis` interface of `aiService.ts` (quality kept as a string). -/
structure ImageAnalysis where
  caption : String
  quality : String
  category : String
  brand_detected : Option String
  colors_detected : Option (List String)
  condition_score : Int
  features : List String
deriving DecidableEq, Repr

/-- The frozen `ai_analysis` subdocument. -/
structure AiAnalysis where
  image_analysis : ImageAnalysis
  price_suggestion : PriceSuggestion
  final_recommendation : String
deriving DecidableEq, Repr

/-- The `admin_review` subdocument (timestamp and reviewer id omitted). -/
structure AdminReview where
  final_price : Option Rat
  mrp : Option Rat
  discount_percentage : Option Int
  pricing_type : Option String
  admin_notes : Option String
deriving DecidableEq, Repr

/-- The `listed_product` snapshot (the `listed_at` timestamp omitted). -/
structure ListedProduct where
  title : String
  description : String
  price : Rat
  mrp : Option Rat
  discount_percentage : Option Int
  category : String
  tags : List String
  mainCategory : String
deriving DecidableEq, Repr

/-- A `Product` document. -/
structure Product where
  id : String
  seller : String
  article : String
  brand : String
  category : String
  gender : Option String
  size : Option String
  age : Option String
  wear_count : Option Int
  damage : Option String
  images : List String
  ai_analysis : AiAnalysis
  status : Status
  pickup_details : Option String
  payment_details : Option String
  admin_review : Option AdminReview
  listed_product : Option ListedProduct
  mainCategory : Option String
deriving DecidableEq, Repr

/-- Outcome envelope of the product-lifecycle route handlers. -/
inductive Resp
  | ok
  | badRequest
  | notFound
  | forbidden
  | serverError
deriving DecidableEq, Repr

/-- The hardcoded admin identity checked by every admin route. -/
def adminEmail : String := "retagcontact00@gmail.com"

/-- `sell.ts` admin review: `mainCategory` derived from gender. -/
def mainCategoryOf (gender : Option String) : String :=
  match gender with
  | some g =>
      if g = "male" then "Men"
      else if g = "female" then "Women"
      else if g = "kids" then "Kids"
      else "Unisex"
  | none => "Unisex"

/-- Tag list built on approval:
`[brand, article, gender, quality, ...features].filter(Boolean)`. -/
def buildTags (brand article : String) (gender : Option String)
    (quality : String) (features : List String) : List String :=
  ([brand, article, gender.getD "", quality] ++ features).filter (fun t => t ≠ "")

/-- `product.save()` after mutating the document found by id: every entry of
the collection carrying that id is replaced by the mutated document. -/
def saveProduct (db : List Product) (pid : String) (newProd : Product) : List Product :=
  db.map (fun q => if q.id = pid then newProd else q)

/-! ## Product lifecycle handlers (`src/routes/sell.ts`) -/

/-- `POST /sell/accept-offer/:id` (seller accepts the AI offer):
requires both detail blocks, and a product of this seller still `pending`. -/
def acceptOffer (db : List Product) (callerId pid : String)
    (pickup payment : Option String) : List Product × Resp :=
  if pickup.isNone || payment.isNone then (db, .badRequest)
  else
    match db.find? (fun p => p.id = pid && p.seller = callerId && p.status = .pending) with
    | none => (db, .notFound)
    | some prod =>
        (saveProduct db pid
          { prod with pickup_details := pickup, payment_details := payment,
                      status := .approved }, .ok)

/-- `POST /sell/reject-offer/:id` (seller rejects the AI offer). -/
def rejectOffer (db : List Product) (callerId pid : String)
    (reason : Option String) : List Product × Resp :=
  match db.find? (fun p => p.id = pid && p.seller = callerId && p.status = .pending) with
  | none => (db, .notFound)
  | some prod =>
      let rejected := { prod with status := Status.rejected }
      let prevAR : AdminReview := prod.admin_review.getD
        { final_price := none, mrp := none, discount_percentage := none,
          pricing_type := none, admin_notes := none }
      let mergedAR : String → AdminReview := fun r =>
        { prevAR with admin_notes := some ("Rejected by seller: " ++ r) }
      let newProd :=
        match reason with
        | some r =>
            if r = "" then rejected
            else { rejected with admin_review := some (mergedAR r) }
        | none => rejected
      (saveProduct db pid newProd, .ok)

/-- Request body of `POST /sell/admin/review/:id`. -/
structure ReviewBody where
  final_price : Option Rat
  mrp : Option Rat
  discount_percentage : Option Int
  pricing_type : Option String
  admin_notes : Option String
  action : Option String
deriving DecidableEq, Repr

/-- The document mutation performed by the approve branch of
`POST /sell/admin/review/:id`. -/
def approveUpdate (prod : Product) (body : ReviewBody) (fp : Rat) : Product :=
  let mainCategory := mainCategoryOf prod.gender
  { prod with
    status := Status.listed,
    admin_review := some
      { final_price := some fp
        mrp := zeroToNone body.mrp
        discount_percentage := intZeroToNone body.discount_percentage
        pricing_type := some (strOrDefault body.pricing_type "fixed")
        admin_notes := body.admin_notes }
    mainCategory := some mainCategory
    listed_product := some
      { title := prod.brand ++ " " ++ prod.article
        description := prod.ai_analysis.image_analysis.caption ++ ". "
          ++ prod.ai_analysis.price_suggestion.reasoning
        price := fp
        mrp := zeroToNone body.mrp
        discount_percentage := intZeroToNone body.discount_percentage
        category := prod.category
        tags := buildTags prod.brand prod.article prod.gender
          prod.ai_analysis.image_analysis.quality
          prod.ai_analysis.image_analysis.features
        mainCategory := mainCategory } }

/-- The document mutation performed by the reject branch of
`POST /sell/admin/review/:id`. -/
def rejectUpdate (prod : Product) (body : ReviewBody) : Product :=
  { prod with
    status := Status.rejected,
    admin_review := some
      { final_price := none, mrp := none, discount_percentage := none,
        pricing_type := none, admin_notes := body.admin_notes } }

/-- `POST /sell/admin/review/:id` (sell.ts lines 321–403).  Note that the
handler looks the product up by id alone: it never inspects the current
`status` before applying the decision. -/
def adminReview (db : List Product) (callerEmail pid : String)
    (body : ReviewBody) : List Product × Resp :=
  if callerEmail ≠ adminEmail then (db, .forbidden)
  else if ¬ (body.action = some "approve" ∨ body.action = some "reject") then
    (db, .badRequest)
  else
    match db.find? (fun p => p.id = pid) with
    | none => (db, .notFound)
    | some prod =>
        if body.action = some "approve" then
          match body.final_price with
          | none => (db, .badRequest)
          | some fp =>
              if fp ≤ 0 then (db, .badRequest)
              else (saveProduct db pid (approveUpdate prod body fp), .ok)
        else (saveProduct db pid (rejectUpdate prod body), .ok)

/-- The discount computed by `PUT /sell/admin/products/:id/edit-price`:
`mrp && mrp > price` guards the `Math.round(((mrp - price) / mrp) * 100)`. -/
def editDiscount (pr : Rat) (mrp : Option Rat) : Int :=
  match mrp with
  | some m => if m ≠ 0 ∧ m > pr then jsRound ((m - pr) / m * 100) else 0
  | none => 0

/-- The document mutation performed by a successful
`PUT /sell/admin/products/:id/edit-price`. -/
def editPriceUpdate (prod : Product) (pr : Rat) (mrp : Option Rat) : Product :=
  let storedDiscount : Option Int :=
    if editDiscount pr mrp = 0 then none else some (editDiscount pr mrp)
  let updAR : AdminReview → AdminReview := fun ar =>
    { ar with final_price := some pr, mrp := zeroToNone mrp,
              discount_percentage := storedDiscount }
  let updLP : ListedProduct → ListedProduct := fun lp =>
    { lp with price := pr, mrp := zeroToNone mrp,
              discount_percentage := storedDiscount }
  { prod with admin_review := prod.admin_review.map updAR,
              listed_product := prod.listed_product.map updLP }

/-- `PUT /sell/admin/products/:id/edit-price` (sell.ts lines 453–507). -/
def editPrice (db : List Product) (callerEmail pid : String)
    (price mrp : Option Rat) : List Product × Resp :=
  if callerEmail ≠ adminEmail then (db, .forbidden)
  else
    match price with
    | none => (db, .badRequest)
    | some pr =>
        if pr ≤ 0 then (db, .badRequest)
        else
          match db.find? (fun p => p.id = pid) with
          | none => (db, .notFound)
          | some prod =>
              if prod.status ≠ .listed then (db, .badRequest)
              else (saveProduct db pid (editPriceUpdate prod pr mrp), .ok)

/-! ## Orders and the settlement protocol (`src/routes/payments.ts`) -/

/-- `status: 'created' | 'paid' | 'failed'` of an `Order`. -/
inductive OrderStatus
  | created
  | paid
  | failed
deriving DecidableEq, Repr

/-- A cart line of an `Order`: `productId` may be a persisted `Product` id
or a static/catalog identifier. -/
structure CartItem where
  productId : String
  name : String
  price : String
  quantity : Nat
deriving DecidableEq, Repr

/-- An `Order` document. -/
structure Order where
  id : String
  razorpayOrderId : String
  razorpayPaymentId : Option String
  status : OrderStatus
  cart : List CartItem
  amount : Rat
deriving DecidableEq, Repr

/-- The whole persistent store touched by settlement. -/
structure DB where
  products : List Product
  orders : List Order
deriving DecidableEq, Repr

/-- `mongoose.Types.ObjectId.isValid(id) && id.length === 24`: a well-formed
persisted product identifier is exactly a 24-character hex string. -/
def isValidObjectId (s : String) : Bool :=
  s.length = 24 && s.data.all (fun c => c.isDigit
    || ('a' ≤ c && c ≤ 'f') || ('A' ≤ c && c ≤ 'F'))

/-- `Order.findOneAndUpdate({razorpayOrderId}, {status:'paid',
razorpayPaymentId})`. -/
def updateOrderPaid (orders : List Order) (oid pid : String) : List Order :=
  orders.map (fun o =>
    if o.razorpayOrderId = oid then
      { o with status := OrderStatus.paid, razorpayPaymentId := some pid }
    else o)

/-- `Product.updateMany({_id: {$in: ids}}, {status: 'sold'})`. -/
def markSoldMany (products : List Product) (ids : List String) : List Product :=
  products.map (fun p =>
    if p.id ∈ ids then { p with status := Status.sold } else p)

/-- Response outcomes of `POST /payments/verify`. -/
inductive VerifyResult
  | success
  | signatureMismatch
  | orderNotFound
  | error500
deriving DecidableEq, Repr

/-- `POST /payments/verify` (user.ts bundle, lines 303–401).  `hmac` is the
keyed HMAC-SHA256 under the shared Razorpay secret, abstracted as an opaque
function of the signed payload.  `updateFails` is an oracle for the
product-update step throwing after the order has been marked paid (the
handler's catch block). -/
def verify (hmac : String → String) (db : DB)
    (order_id payment_id signature : String) (updateFails : Bool) :
    DB × VerifyResult :=
  let generated_signature := hmac (order_id ++ "|" ++ payment_id)
  if generated_signature = signature then
    match db.orders.find? (fun o => o.razorpayOrderId = order_id) with
    | none => (db, .orderNotFound)
    | some order =>
        let db1 : DB := { db with orders := updateOrderPaid db.orders order_id payment_id }
        let productIds := order.cart.map (fun item => item.productId)
        let validObjectIds := productIds.filter (fun id => isValidObjectId id)
        if updateFails then (db1, .error500)
        else ({ db1 with products := markSoldMany db1.products validObjectIds }, .success)
  else (db, .signatureMismatch)

/-- Response outcomes of `POST /payments/admin/complete-order/:orderId`
(`error500` is the catch-block answer "Error completing order"). -/
inductive CompleteResult
  | success
  | forbidden
  | orderNotFound
  | alreadyCompleted
  | error500
deriving DecidableEq, Repr

/-- A string castable to a Mongoose `ObjectId`: any 12-character string
(taken as raw bytes) or a 24-character hex string.  `Product.updateMany`
casts every element of an `$in` filter against the `_id` path and throws a
`CastError` on the first element that is not castable. -/
def isCastableObjectId (s : String) : Bool :=
  s.length = 12 || isValidObjectId s

/-- `POST /payments/admin/complete-order/:orderId` (user.ts bundle, lines
404–448): the manual override marks the order paid and then forwards the
raw cart product ids — unfiltered — to `Product.updateMany`.  Because the
ids are not filtered, a cart containing an id that cannot be cast to an
`ObjectId` (a static catalog id such as `test-product-1`) makes the update
throw a `CastError`: the route's catch answers the generic 500 failure and
no product is updated, while the order — updated first — remains paid. -/
def adminCompleteOrder (db : DB) (callerEmail orderId : String) : DB × CompleteResult :=
  if callerEmail ≠ adminEmail then (db, .forbidden)
  else
    match db.orders.find? (fun o => o.id = orderId) with
    | none => (db, .orderNotFound)
    | some order =>
        if order.status = .paid then (db, .alreadyCompleted)
        else
          let orders := db.orders.map (fun o =>
            if o.id = orderId then
              { o with status := OrderStatus.paid,
                       razorpayPaymentId := some "manual_verification" }
            else o)
          let productIds := order.cart.map (fun item => item.productId)
          if productIds.all (fun id => isCastableObjectId id) then
            ({ products := markSoldMany db.products productIds, orders := orders }, .success)
          else
            ({ products := db.products, orders := orders }, .error500)

/-! ## The listing-snapshot invariant (spec §3) -/

/-- `listed_product` exists iff `status ∈ {listed, sold}`. -/
def listedSnapshotInvariant (p : Product) : Prop :=
  p.listed_product.isSome ↔ (p.status = Status.listed ∨ p.status = Status.sold)

instance (p : Product) : Decidable (listedSnapshotInvariant p) := by
  unfold listedSnapshotInvariant; infer_instance

/-! ## Concrete sample documents (used by witnesses and counterexamples) -/

/-- A sample frozen image analysis. -/
def exImageAnalysis : ImageAnalysis :=
  { caption := "Detected as: jersey", quality := "good", category := "tshirt",
    brand_detected := none, colors_detected := none, condition_score := 7,
    features := ["jersey"] }

/-- A sample price suggestion. -/
def exPriceSuggestion : PriceSuggestion :=
  { suggested_price := 500, reasoning := "standard resale pricing",
    market_comparison := "similar items", confidence_score := 1, factors := [] }

/-- A sample frozen `ai_analysis`. -/
def exAnalysis : AiAnalysis :=
  { image_analysis := exImageAnalysis, price_suggestion := exPriceSuggestion,
    final_recommendation := "recommendation" }

/-- A freshly submitted product (status `pending`, id a 24-char hex string). -/
def exPendingProduct : Product :=
  { id := "aaaaaaaaaaaaaaaaaaaaaaaa", seller := "seller1", article := "T-Shirt",
    brand := "Nike", category := "tshirt", gender := some "male", size := none,
    age := none, wear_count := none, damage := none, images := ["img1"],
    ai_analysis := exAnalysis, status := .pending, pickup_details := none,
    payment_details := none, admin_review := none, listed_product := none,
    mainCategory := none }

/-- A product awaiting admin review (status `approved`). -/
def exApprovedProduct : Product :=
  { exPendingProduct with
    status := Status.approved,
    pickup_details := some "pickup", payment_details := some "payment" }

/-- The admin review subdocument of the published sample product. -/
def exAdminReview : AdminReview :=
  { final_price := some 650, mrp := some 1000, discount_percentage := none,
    pricing_type := some "fixed", admin_notes := none }

/-- The listing snapshot of the published sample product. -/
def exListedSnapshot : ListedProduct :=
  { title := "Nike T-Shirt", description := "Detected as: jersey. standard resale pricing",
    price := 650, mrp := some 1000, discount_percentage := none,
    category := "tshirt", tags := ["Nike", "T-Shirt", "male", "good", "jersey"],
    mainCategory := "Men" }

/-- A published product (status `listed`) with its review and snapshot. -/
def exListedProduct : Product :=
  { exApprovedProduct with
    status := Status.listed,
    admin_review := some exAdminReview
    listed_product := some exListedSnapshot
    mainCategory := some "Men" }

/-- A non-persisted/static catalog entry id placed in carts. -/
def staticId : String := "test-product-1"

/-- A sample admin-review request body: approve at 650 against an MRP of
1000, with no `discount_percentage` supplied. -/
def exBody : ReviewBody :=
  { final_price := some 650, mrp := some 1000, discount_percentage := none,
    pricing_type := none, admin_notes := none, action := some "approve" }

/-- A concrete stand-in for the keyed HMAC in witnesses. -/
def hmacId : String → String := fun s => s ++ "#sig"

/-- An order whose cart mixes the persisted product and a static id. -/
def exOrder : Order :=
  { id := "order1", razorpayOrderId := "rzp1", razorpayPaymentId := none,
    status := .created, amount := 779,
    cart := [ { productId := "aaaaaaaaaaaaaaaaaaaaaaaa", name := "Nike T-Shirt",
                price := "650", quantity := 1 },
              { productId := "test-product-1", name := "Static", price := "100",
                quantity := 1 } ] }

/-- Store holding the pending product and the mixed-cart order. -/
def exDB : DB := { products := [exPendingProduct], orders := [exOrder] }

/-- Store holding the listed product and the mixed-cart order. -/
def exListedDB : DB := { products := [exListedProduct], orders := [exOrder] }

/-- A second pending product whose id is a 12-character string — castable
to an `ObjectId` (12 raw bytes) although not a 24-character hex id. -/
def exCatalogProduct : Product := { exPendingProduct with id := "catalog-0001" }

/-- An order whose cart references only castable ids: the 24-hex product
and the 12-character product. -/
def exOrder3 : Order :=
  { id := "order3", razorpayOrderId := "rzp3", razorpayPaymentId := none,
    status := .created, amount := 779,
    cart := [ { productId := "aaaaaaaaaaaaaaaaaaaaaaaa", name := "Nike T-Shirt",
                price := "650", quantity := 1 },
              { productId := "catalog-0001", name := "Catalog", price := "100",
                quantity := 1 } ] }

/-- Store holding the two pending products and the all-castable-cart order. -/
def exDB3 : DB :=
  { products := [exPendingProduct, exCatalogProduct], orders := [exOrder3] }

/-! ## Supporting lemmas -/

theorem find?_updateOrderPaid (orders : List Order) (o p : String) :
    (updateOrderPaid orders o p).find? (fun x => x.razorpayOrderId = o)
      = (orders.find? (fun x => x.razorpayOrderId = o)).map
          (fun x => { x with status := OrderStatus.paid, razorpayPaymentId := some p }) := by
  induction orders with
  | nil => rfl
  | cons a l ih =>
      by_cases h : a.razorpayOrderId = o
      · simp [updateOrderPaid, List.find?_cons, h]
      · simp only [updateOrderPaid, List.map_cons] at ih ⊢
        simp [List.find?_cons, h, ih]

theorem updateOrderPaid_idem (orders : List Order) (o p : String) :
    updateOrderPaid (updateOrderPaid orders o p) o p = updateOrderPaid orders o p := by
  unfold updateOrderPaid
  rw [List.map_map]
  refine List.map_congr_left ?_
  intro a _
  by_cases h : a.razorpayOrderId = o <;> simp [Function.comp, h]

theorem markSoldMany_idem (products : List Product) (ids : List String) :
    markSoldMany (markSoldMany products ids) ids = markSoldMany products ids := by
  unfold markSoldMany
  rw [List.map_map]
  refine List.map_congr_left ?_
  intro a _
  by_cases h : a.id ∈ ids <;> simp [Function.comp, h]

theorem mem_saveProduct {db : List Product} {pid : String} {newProd q : Product}
    (h : q ∈ saveProduct db pid newProd) :
    q = newProd ∨ (q ∈ db ∧ q.id ≠ pid) := by
  unfold saveProduct at h
  rw [List.mem_map] at h
  obtain ⟨x, hx, hxq⟩ := h
  by_cases hid : x.id = pid
  · rw [if_pos hid] at hxq
    exact Or.inl hxq.symm
  · rw [if_neg hid] at hxq
    subst hxq
    exact Or.inr ⟨hx, hid⟩

theorem adminReview_eq_approve (db : List Product) (pid : String)
    (body : ReviewBody) (prod : Product) (fp : Rat)
    (hfind : db.find? (fun q => q.id = pid) = some prod)
    (haction : body.action = some "approve")
    (hfp : body.final_price = some fp) (hpos : 0 < fp) :
    adminReview db adminEmail pid body
      = (saveProduct db pid (approveUpdate prod body fp), .ok) := by
  unfold adminReview
  rw [haction, hfp, hfind]
  simp [hpos.not_le]

theorem editPrice_eq_update (db : List Product) (pid : String)
    (pr : Rat) (mrp : Option Rat) (prod : Product)
    (hfind : db.find? (fun q => q.id = pid) = some prod)
    (hpos : 0 < pr) (hstatus : prod.status = Status.listed) :
    editPrice db adminEmail pid (some pr) mrp
      = (saveProduct db pid (editPriceUpdate prod pr mrp), .ok) := by
  unfold editPrice
  rw [hfind]
  simp [hpos.not_le, hstatus]

theorem editPrice_ok_inv (db : List Product) (caller pid : String)
    (price mrp : Option Rat)
    (h : (editPrice db caller pid price mrp).snd = .ok) :
    caller = adminEmail ∧ ∃ pr, price = some pr ∧ 0 < pr ∧
      ∃ prod, db.find? (fun q => q.id = pid) = some prod ∧
        prod.status = Status.listed ∧
        editPrice db caller pid price mrp
          = (saveProduct db pid (editPriceUpdate prod pr mrp), .ok) := by
  by_cases hc : caller ≠ adminEmail
  · exfalso
    unfold editPrice at h
    rw [if_pos hc] at h
    exact Resp.noConfusion h
  · have hcaller : caller = adminEmail := not_not.mp hc
    subst hcaller
    cases price with
    | none =>
        exfalso
        unfold editPrice at h
        rw [if_neg hc] at h
        exact Resp.noConfusion h
    | some pr =>
        unfold editPrice at h
        rw [if_neg hc] at h
        dsimp only at h
        by_cases hp : pr ≤ 0
        · rw [if_pos hp] at h
          exact Resp.noConfusion h
        · rw [if_neg hp] at h
          cases hfind : db.find? (fun q => q.id = pid) with
          | none =>
              rw [hfind] at h
              exact Resp.noConfusion h
          | some prod =>
              rw [hfind] at h
              dsimp only at h
              by_cases hs : prod.status ≠ Status.listed
              · rw [if_pos hs] at h
                exact Resp.noConfusion h
              · have hstatus := not_not.mp hs
                exact ⟨rfl, pr, rfl, not_le.mp hp, prod, rfl, hstatus,
                  editPrice_eq_update db pid pr mrp prod hfind (not_le.mp hp) hstatus⟩

theorem markSoldMany_mem (products : List Product) (ids : List String)
    (prod : Product) (h : prod ∈ products) (hid : prod.id ∈ ids) :
    { prod with status := Status.sold } ∈ markSoldMany products ids := by
  unfold markSoldMany
  have hmem := List.mem_map_of_mem
    (fun p => if p.id ∈ ids then { p with status := Status.sold } else p) h
  dsimp only at hmem
  rwa [if_pos hid] at hmem

theorem acceptOffer_preserves_inv (db : List Product) (callerId pid : String)
    (pickup payment : Option String)
    (hinv : ∀ q ∈ db, listedSnapshotInvariant q) :
    ∀ q ∈ (acceptOffer db callerId pid pickup payment).fst,
      listedSnapshotInvariant q := by
  intro q hq
  unfold acceptOffer at hq
  by_cases hc : pickup.isNone || payment.isNone
  · rw [if_pos hc] at hq
    exact hinv q hq
  · rw [if_neg hc] at hq
    cases hfind : db.find?
        (fun p => p.id = pid && p.seller = callerId && p.status = .pending) with
    | none =>
        rw [hfind] at hq
        exact hinv q hq
    | some prod =>
        rw [hfind] at hq
        dsimp only at hq
        rcases mem_saveProduct hq with h | h
        · subst h
          have hpred := List.find?_some hfind
          simp only [Bool.and_eq_true, decide_eq_true_eq] at hpred
          have hinvp := hinv prod (List.mem_of_find?_eq_some hfind)
          have hns : ¬ (prod.listed_product.isSome = true) := fun hs => by
            rcases hinvp.mp hs with h1 | h1 <;>
              { rw [hpred.2] at h1; exact Status.noConfusion h1 }
          show (prod.listed_product.isSome = true) ↔ _
          constructor
          · intro hs
            exact absurd hs hns
          · rintro (h1 | h1) <;> exact Status.noConfusion h1
        · exact hinv q h.1

theorem rejectOffer_preserves_inv (db : List Product) (callerId pid : String)
    (reason : Option String)
    (hinv : ∀ q ∈ db, listedSnapshotInvariant q) :
    ∀ q ∈ (rejectOffer db callerId pid reason).fst, listedSnapshotInvariant q := by
  intro q hq
  unfold rejectOffer at hq
  cases hfind : db.find?
      (fun p => p.id = pid && p.seller = callerId && p.status = .pending) with
  | none =>
      rw [hfind] at hq
      exact hinv q hq
  | some prod =>
      rw [hfind] at hq
      dsimp only at hq
      rcases mem_saveProduct hq with h | h
      · have hpred := List.find?_some hfind
        simp only [Bool.and_eq_true, decide_eq_true_eq] at hpred
        have hinvp := hinv prod (List.mem_of_find?_eq_some hfind)
        have hns : ¬ (prod.listed_product.isSome = true) := fun hs => by
          rcases hinvp.mp hs with h1 | h1 <;>
            { rw [hpred.2] at h1; exact Status.noConfusion h1 }
        have hfields : q.listed_product = prod.listed_product
            ∧ q.status = Status.rejected := by
          subst h
          cases reason with
          | none => exact ⟨rfl, rfl⟩
          | some r =>
              dsimp only
              by_cases hr : r = ""
              · rw [if_pos hr]
                exact ⟨rfl, rfl⟩
              · rw [if_neg hr]
                exact ⟨rfl, rfl⟩
        show (q.listed_product.isSome = true) ↔ _
        rw [hfields.1, hfields.2]
        constructor
        · intro hs
          exact absurd hs hns
        · rintro (h1 | h1) <;> exact Status.noConfusion h1
      · exact hinv q h.1

theorem adminReview_approve_preserves_inv (db : List Product)
    (caller pid : String) (body : ReviewBody)
    (haction : body.action = some "approve")
    (hinv : ∀ q ∈ db, listedSnapshotInvariant q) :
    ∀ q ∈ (adminReview db caller pid body).fst, listedSnapshotInvariant q := by
  intro q hq
  unfold adminReview at hq
  by_cases hc : caller ≠ adminEmail
  · rw [if_pos hc] at hq
    exact hinv q hq
  · rw [if_neg hc, if_neg (not_not_intro (Or.inl haction))] at hq
    cases hfind : db.find? (fun p => p.id = pid) with
    | none =>
        rw [hfind] at hq
        exact hinv q hq
    | some prod =>
        rw [hfind] at hq
        dsimp only at hq
        rw [if_pos haction] at hq
        cases hfp : body.final_price with
        | none =>
            rw [hfp] at hq
            exact hinv q hq
        | some fp =>
            rw [hfp] at hq
            dsimp only at hq
            by_cases hple : fp ≤ 0
            · rw [if_pos hple] at hq
              exact hinv q hq
            · rw [if_neg hple] at hq
              rcases mem_saveProduct hq with h | h
              · subst h
                show ((approveUpdate prod body fp).listed_product.isSome = true) ↔ _
                constructor
                · intro _
                  exact Or.inl rfl
                · intro _
                  rfl
              · exact hinv q h.1

theorem editPrice_preserves_inv (db : List Product) (caller pid : String)
    (price mrp : Option Rat)
    (hinv : ∀ q ∈ db, listedSnapshotInvariant q) :
    ∀ q ∈ (editPrice db caller pid price mrp).fst, listedSnapshotInvariant q := by
  intro q hq
  unfold editPrice at hq
  by_cases hc : caller ≠ adminEmail
  · rw [if_pos hc] at hq
    exact hinv q hq
  · rw [if_neg hc] at hq
    cases price with
    | none => exact hinv q hq
    | some pr =>
        dsimp only at hq
        by_cases hple : pr ≤ 0
        · rw [if_pos hple] at hq
          exact hinv q hq
        · rw [if_neg hple] at hq
          cases hfind : db.find? (fun p => p.id = pid) with
          | none =>
              rw [hfind] at hq
              exact hinv q hq
          | some prod =>
              rw [hfind] at hq
              dsimp only at hq
              by_cases hs : prod.status ≠ Status.listed
              · rw [if_pos hs] at hq
                exact hinv q hq
              · rw [if_neg hs] at hq
                rcases mem_saveProduct hq with h | h
                · subst h
                  have hinvp := hinv prod (List.mem_of_find?_eq_some hfind)
                  have h1 : (editPriceUpdate prod pr mrp).listed_product.isSome
                      = prod.listed_product.isSome := by
                    unfold editPriceUpdate
                    dsimp only
                    cases prod.listed_product <;> rfl
                  have h2 : (editPriceUpdate prod pr mrp).status = prod.status := rfl
                  show ((editPriceUpdate prod pr mrp).listed_product.isSome = true) ↔ _
                  rw [h1, h2]
                  exact hinvp
                · exact hinv q h.1

theorem verify_of_match (hmac : String → String) (db : DB) (o p sig : String)
    (ord : Order) (hsig : hmac (o ++ "|" ++ p) = sig)
    (hfind : db.orders.find? (fun x => x.razorpayOrderId = o) = some ord) :
    verify hmac db o p sig false =
      ({ products := markSoldMany db.products
            ((ord.cart.map (fun item => item.productId)).filter
              (fun id => isValidObjectId id)),
         orders := updateOrderPaid db.orders o p }, .success) := by
  unfold verify
  rw [if_pos hsig, hfind]
  rfl

theorem verify_preserves_inv (hmac : String → String) (db : DB)
    (o p sig : String) (ord : Order)
    (hsig : hmac (o ++ "|" ++ p) = sig)
    (hfind : db.orders.find? (fun x => x.razorpayOrderId = o) = some ord)
    (hinv : ∀ q ∈ db.products, listedSnapshotInvariant q)
    (hguard : ∀ q ∈ db.products, isValidObjectId q.id →
        q.id ∈ ord.cart.map (fun item => item.productId) →
        q.status = Status.listed ∨ q.status = Status.sold) :
    ∀ q ∈ (verify hmac db o p sig false).fst.products,
      listedSnapshotInvariant q := by
  intro q hq
  rw [verify_of_match hmac db o p sig ord hsig hfind] at hq
  unfold markSoldMany at hq
  rw [List.mem_map] at hq
  obtain ⟨x, hx, hxq⟩ := hq
  by_cases hid : x.id ∈ (ord.cart.map (fun item => item.productId)).filter
      (fun id => isValidObjectId id)
  · rw [if_pos hid] at hxq
    subst hxq
    have hmf := List.mem_filter.mp hid
    have hinvx := hinv x hx
    show (x.listed_product.isSome = true) ↔ _
    constructor
    · intro _
      exact Or.inr rfl
    · intro _
      exact hinvx.mpr (hguard x hx hmf.2 hmf.1)
  · rw [if_neg hid] at hxq
    subst hxq
    exact hinv x hx

theorem verify_of_match_updateFails (hmac : String → String) (db : DB)
    (o p sig : String) (ord : Order) (hsig : hmac (o ++ "|" ++ p) = sig)
    (hfind : db.orders.find? (fun x => x.razorpayOrderId = o) = some ord) :
    verify hmac db o p sig true =
      ({ products := db.products, orders := updateOrderPaid db.orders o p },
        .error500) := by
  unfold verify
  rw [if_pos hsig, hfind]
  rfl

theorem verify_success_inv (hmac : String → String) (db db' : DB)
    (o p sig : String) (h : verify hmac db o p sig false = (db', .success)) :
    hmac (o ++ "|" ++ p) = sig ∧
    ∃ ord, db.orders.find? (fun x => x.razorpayOrderId = o) = some ord ∧
      db' = { products := markSoldMany db.products
                ((ord.cart.map (fun item => item.productId)).filter
                  (fun id => isValidObjectId id)),
              orders := updateOrderPaid db.orders o p } := by
  by_cases hsig : hmac (o ++ "|" ++ p) = sig
  · cases hfind : db.orders.find? (fun x => x.razorpayOrderId = o) with
    | none =>
        rw [verify, if_pos hsig, hfind] at h
        exact absurd (congrArg Prod.snd h) (by simp)
    | some ord =>
        rw [verify_of_match hmac db o p sig ord hsig hfind] at h
        exact ⟨hsig, ord, rfl, (congrArg Prod.fst h).symm⟩
  · rw [verify, if_neg hsig] at h
    exact absurd (congrArg Prod.snd h) (by simp)

/-! ## Claim theorems -/

/-- C2: a settlement request whose signature does not equal the HMAC of
`orderRef|paymentRef` under the shared secret fails with the
signature-mismatch response and mutates no state: the database (orders and
products alike) is returned unchanged. -/
theorem C2_signature_mismatch (hmac : String → String) (db : DB)
    (o p sig : String) (updateFails : Bool)
    (h : sig ≠ hmac (o ++ "|" ++ p)) :
    verify hmac db o p sig updateFails = (db, .signatureMismatch) := by
  unfold verify
  rw [if_neg (fun hc => h hc.symm)]

/-- Witness for C2 at a concrete store: a wrong signature is rejected and
the pending product and created order are untouched. -/
theorem C2_signature_mismatch_witness :
    ("bad-signature" : String) ≠ hmacId ("rzp1" ++ "|" ++ "pay1") ∧
    verify hmacId exDB "rzp1" "pay1" "bad-signature" false =
      (exDB, .signatureMismatch) :=
  ⟨by decide,
   C2_signature_mismatch hmacId exDB "rzp1" "pay1" "bad-signature" false (by decide)⟩

/-- C3: settlement is idempotent under duplicate delivery: if a verification
run succeeded and produced the settled store, re-running the same
verification on the settled store succeeds again and leaves it unchanged;
and at the product level, applying the sold transition a second time is a
no-op. -/
theorem C3_settlement_idempotent (hmac : String → String) (db db' : DB)
    (o p sig : String)
    (h : verify hmac db o p sig false = (db', .success)) :
    verify hmac db' o p sig false = (db', .success) ∧
    (∀ (products : List Product) (ids : List String),
      markSoldMany (markSoldMany products ids) ids = markSoldMany products ids) := by
  refine ⟨?_, markSoldMany_idem⟩
  obtain ⟨hsig, ord, hfind, hdb⟩ := verify_success_inv hmac db db' o p sig h
  have hfind' : db'.orders.find? (fun x => x.razorpayOrderId = o)
      = some { ord with status := OrderStatus.paid, razorpayPaymentId := some p } := by
    rw [hdb]
    simp only [find?_updateOrderPaid, hfind]
    rfl
  rw [verify_of_match hmac db' o p sig _ hsig hfind']
  rw [hdb]
  simp only [updateOrderPaid_idem]
  have hprod : markSoldMany
      (markSoldMany db.products
        ((ord.cart.map (fun item => item.productId)).filter (fun id => isValidObjectId id)))
      ((ord.cart.map (fun item => item.productId)).filter (fun id => isValidObjectId id))
      = markSoldMany db.products
        ((ord.cart.map (fun item => item.productId)).filter (fun id => isValidObjectId id)) :=
    markSoldMany_idem _ _
  exact congrArg (fun ps => ((⟨ps, updateOrderPaid db.orders o p⟩ : DB), VerifyResult.success)) hprod

/-- Witness for C3: settling the concrete store once yields the settled
store, and re-delivering the same confirmation is accepted and changes
nothing. -/
theorem C3_settlement_idempotent_witness :
    verify hmacId (verify hmacId exDB "rzp1" "pay1" (hmacId "rzp1|pay1") false).fst
        "rzp1" "pay1" (hmacId "rzp1|pay1") false
      = ((verify hmacId exDB "rzp1" "pay1" (hmacId "rzp1|pay1") false).fst, .success) :=
  (C3_settlement_idempotent hmacId exDB
    (verify hmacId exDB "rzp1" "pay1" (hmacId "rzp1|pay1") false).fst
    "rzp1" "pay1" (hmacId "rzp1|pay1") (by decide)).1

/-- C4: settling an order whose cart mixes persisted and static product
references with a valid signature succeeds, marks the order paid, and
updates exactly the products whose id is a well-formed 24-character hex
ObjectId appearing in the cart — those become `sold`; static identifiers
are skipped without failing the settlement. -/
theorem C4_mixed_cart_settlement (hmac : String → String) (db : DB)
    (o p sig : String) (ord : Order)
    (hsig : hmac (o ++ "|" ++ p) = sig)
    (hfind : db.orders.find? (fun x => x.razorpayOrderId = o) = some ord) :
    (verify hmac db o p sig false).snd = .success ∧
    (∀ o2 ∈ (verify hmac db o p sig false).fst.orders,
        o2.razorpayOrderId = o → o2.status = .paid) ∧
    (verify hmac db o p sig false).fst.products
      = db.products.map (fun prod =>
          if isValidObjectId prod.id
              ∧ prod.id ∈ ord.cart.map (fun item => item.productId)
          then { prod with status := Status.sold } else prod) := by
  rw [verify_of_match hmac db o p sig ord hsig hfind]
  refine ⟨rfl, ?_, ?_⟩
  · intro o2 hmem h2
    simp only [updateOrderPaid, List.mem_map] at hmem
    obtain ⟨x, _, hxo⟩ := hmem
    by_cases hxid : x.razorpayOrderId = o
    · rw [if_pos hxid] at hxo
      subst hxo; rfl
    · rw [if_neg hxid] at hxo
      subst hxo; exact absurd h2 hxid
  · show markSoldMany db.products _ = _
    unfold markSoldMany
    apply List.map_congr_left
    intro prod _
    by_cases h1 : isValidObjectId prod.id
    · by_cases h2 : prod.id ∈ ord.cart.map (fun item => item.productId)
      · rw [if_pos (List.mem_filter.mpr ⟨h2, h1⟩), if_pos ⟨h1, h2⟩]
      · rw [if_neg (fun hc => h2 (List.mem_filter.mp hc).1),
            if_neg (fun hc => h2 hc.2)]
    · rw [if_neg (fun hc => h1 (List.mem_filter.mp hc).2),
          if_neg (fun hc => h1 hc.1)]

/-- Witness for C4 at the concrete store: the cart holds one persisted
24-hex id and the static id `test-product-1`; settlement succeeds, the
order is paid, the persisted product is sold and the static id is skipped. -/
theorem C4_mixed_cart_settlement_witness :
    (verify hmacId exDB "rzp1" "pay1" (hmacId "rzp1|pay1") false).snd = .success ∧
    (∀ o2 ∈ (verify hmacId exDB "rzp1" "pay1" (hmacId "rzp1|pay1") false).fst.orders,
        o2.razorpayOrderId = "rzp1" → o2.status = .paid) ∧
    (verify hmacId exDB "rzp1" "pay1" (hmacId "rzp1|pay1") false).fst.products
      = exDB.products.map (fun prod =>
          if isValidObjectId prod.id
              ∧ prod.id ∈ exOrder.cart.map (fun item => item.productId)
          then { prod with status := Status.sold } else prod) :=
  C4_mixed_cart_settlement hmacId exDB "rzp1" "pay1" (hmacId "rzp1|pay1") exOrder
    (by decide) (by decide)

/-- C1 counterexample: the claim asserts `adminReview` fails with
InvalidState and leaves the product unchanged whenever the product's status
is not `approved`.  On a concrete `pending` product, the approve action
nonetheless succeeds (`.ok`, not an invalid-state rejection) and mutates the
product to `listed`. -/
theorem C1_counterexample :
    exPendingProduct.status ≠ Status.approved ∧
    (adminReview [exPendingProduct] adminEmail "aaaaaaaaaaaaaaaaaaaaaaaa" exBody).snd
      = .ok ∧
    ((adminReview [exPendingProduct] adminEmail "aaaaaaaaaaaaaaaaaaaaaaaa" exBody).fst.map
        (fun q => q.status)) = [Status.listed] := by decide

/-- C1 (amended): the admin review handler never inspects the product's
current status: for any found product — whatever its status — an approve
action with a positive final price succeeds and sets the product's status
to `listed`. -/
theorem C1_amended (db : List Product) (pid : String) (body : ReviewBody)
    (prod : Product) (fp : Rat)
    (hfind : db.find? (fun q => q.id = pid) = some prod)
    (haction : body.action = some "approve")
    (hfp : body.final_price = some fp) (hpos : 0 < fp) :
    (adminReview db adminEmail pid body).snd = .ok ∧
    ∀ q ∈ (adminReview db adminEmail pid body).fst,
      q.id = pid → q.status = Status.listed := by
  rw [adminReview_eq_approve db pid body prod fp hfind haction hfp hpos]
  refine ⟨rfl, ?_⟩
  intro q hq hqid
  rcases mem_saveProduct hq with h | h
  · subst h; rfl
  · exact absurd hqid h.2

/-- Witness for C1 (amended): reviewing the concrete pending product — not
`approved` — succeeds and lists it. -/
theorem C1_amended_witness :
    (adminReview [exPendingProduct] adminEmail "aaaaaaaaaaaaaaaaaaaaaaaa" exBody).snd
      = .ok ∧
    ∀ q ∈ (adminReview [exPendingProduct] adminEmail "aaaaaaaaaaaaaaaaaaaaaaaa" exBody).fst,
      q.id = "aaaaaaaaaaaaaaaaaaaaaaaa" → q.status = Status.listed :=
  C1_amended [exPendingProduct] "aaaaaaaaaaaaaaaaaaaaaaaa" exBody exPendingProduct 650
    (by decide) (by decide) (by decide) (by decide)

/-- C6 counterexample: the claim asserts that when the product-update step
fails after the order was marked paid, the outcome is reported as a
qualified success (PartialSettlement, distinct from total failure)
identifying which products were updated.  On a concrete run in which the
update step throws, the handler instead answers with the generic 500
failure envelope (`success: false`, message "Error updating order status"),
not any form of success — though the order does remain paid. -/
theorem C6_counterexample :
    (verify hmacId exDB "rzp1" "pay1" (hmacId "rzp1|pay1") true).snd = .error500 ∧
    (verify hmacId exDB "rzp1" "pay1" (hmacId "rzp1|pay1") true).snd ≠ .success ∧
    ((verify hmacId exDB "rzp1" "pay1" (hmacId "rzp1|pay1") true).fst.orders.map
        (fun o2 => o2.status)) = [OrderStatus.paid] := by decide

/-- C6 (amended): when the product-update step fails after the signature
matched and the order was marked paid, the handler reports the generic 500
failure (identifying nothing), leaves every product untouched, and the
order's paid status is not rolled back. -/
theorem C6_amended (hmac : String → String) (db : DB) (o p sig : String)
    (ord : Order) (hsig : hmac (o ++ "|" ++ p) = sig)
    (hfind : db.orders.find? (fun x => x.razorpayOrderId = o) = some ord) :
    verify hmac db o p sig true
      = ({ products := db.products, orders := updateOrderPaid db.orders o p },
         .error500) ∧
    ∀ o2 ∈ (verify hmac db o p sig true).fst.orders,
      o2.razorpayOrderId = o → o2.status = .paid := by
  have heq := verify_of_match_updateFails hmac db o p sig ord hsig hfind
  refine ⟨heq, ?_⟩
  rw [heq]
  intro o2 hmem h2
  simp only [updateOrderPaid, List.mem_map] at hmem
  obtain ⟨x, _, hxo⟩ := hmem
  by_cases hxid : x.razorpayOrderId = o
  · rw [if_pos hxid] at hxo
    subst hxo; rfl
  · rw [if_neg hxid] at hxo
    subst hxo; exact absurd h2 hxid

/-- Witness for C6 (amended) at the concrete store. -/
theorem C6_amended_witness :
    verify hmacId exDB "rzp1" "pay1" (hmacId "rzp1|pay1") true
      = ({ products := exDB.products, orders := updateOrderPaid exDB.orders "rzp1" "pay1" },
         .error500) ∧
    ∀ o2 ∈ (verify hmacId exDB "rzp1" "pay1" (hmacId "rzp1|pay1") true).fst.orders,
      o2.razorpayOrderId = "rzp1" → o2.status = .paid :=
  C6_amended hmacId exDB "rzp1" "pay1" (hmacId "rzp1|pay1") exOrder
    (by decide) (by decide)

/-- C7: fallback price derivation applies whenever the reasoning signal is
unavailable (explicitly) or its output is unparsable (with empty details),
and it is a deterministic function of its inputs: with no market reference
and brand "Nike" the suggested price is 800; with a market reference
{min 1000, max 2000, avg 1500} the suggested price is round(1500 × 0.5) =
750; fallback confidence is always 0.6. -/
theorem C7_fallback_pricing :
    (∀ brand sp, suggestPriceWithSerp brand sp .unavailable
        = fallbackPriceSuggestion brand sp) ∧
    (parseGeminiResponse none = fallbackPriceSuggestion none none) ∧
    ((fallbackPriceSuggestion (some "Nike") none).suggested_price = 800) ∧
    (∀ brand, (fallbackPriceSuggestion brand
        (some { min := 1000, max := 2000, avg := 1500 })).suggested_price = 750) ∧
    (∀ brand sp, (fallbackPriceSuggestion brand sp).confidence_score
        = (6 : Rat) / 10) := by
  refine ⟨fun _ _ => rfl, rfl, by decide, ?_, fun _ _ => rfl⟩
  intro brand
  show ((jsRound ((1500 : Nat) * ((1 : Rat)/2)) : Int) : Rat) = 750
  norm_num [jsRound]

/-- C8 counterexample: the claim asserts `adminReview(action=approve)`
computes `discount_percentage = round((mrp − final_price)/mrp × 100)` from
`mrp` and `final_price`.  Reviewing the concrete approved product with
`final_price = 650`, `mrp = 1000` and no `discount_percentage` in the
request stores `none` — whereas the claimed formula yields 35: the handler
stores the caller-supplied value verbatim and computes nothing. -/
theorem C8_counterexample :
    ((adminReview [exApprovedProduct] adminEmail "aaaaaaaaaaaaaaaaaaaaaaaa" exBody).fst.map
        (fun q => q.admin_review.map (fun ar => ar.discount_percentage)))
      = [some none] ∧
    jsRound (((1000 : Rat) - 650) / 1000 * 100) = 35 := by
  refine ⟨by decide, ?_⟩
  norm_num [jsRound]

/-- C8 (amended): `editPrice` does compute
`discount_percentage = round((mrp − price)/mrp × 100)` whenever `mrp` is
supplied, nonzero and greater than the price (storing `none` when the
rounded value is 0), and mrp = 1000 with price = 650 yields 35;
`adminReview(action=approve)`, by contrast, stores the caller-supplied
`discount_percentage` verbatim (normalising falsy 0 to absent), computing
nothing from `mrp` and `final_price`. -/
theorem C8_amended :
    (∀ (pr m : Rat), m ≠ 0 → pr < m →
        editDiscount pr (some m) = jsRound ((m - pr) / m * 100)) ∧
    (jsRound (((1000 : Rat) - 650) / 1000 * 100) = 35) ∧
    (∀ (db : List Product) (pid : String) (pr : Rat) (mrp : Option Rat)
        (prod : Product), db.find? (fun q => q.id = pid) = some prod →
        0 < pr → prod.status = Status.listed →
        ∀ q ∈ (editPrice db adminEmail pid (some pr) mrp).fst,
          q.id = pid → q = editPriceUpdate prod pr mrp) ∧
    (∀ (db : List Product) (pid : String) (body : ReviewBody) (prod : Product)
        (fp : Rat), db.find? (fun q => q.id = pid) = some prod →
        body.action = some "approve" → body.final_price = some fp → 0 < fp →
        ∀ q ∈ (adminReview db adminEmail pid body).fst,
          q.id = pid → q.admin_review.map (fun ar => ar.discount_percentage)
            = some (intZeroToNone body.discount_percentage)) := by
  refine ⟨?_, ?_, ?_, ?_⟩
  · intro pr m h1 h2
    unfold editDiscount
    dsimp only
    rw [if_pos (⟨h1, h2⟩ : m ≠ 0 ∧ m > pr)]
  · norm_num [jsRound]
  · intro db pid pr mrp prod hfind hpos hstatus q hq hqid
    rw [editPrice_eq_update db pid pr mrp prod hfind hpos hstatus] at hq
    rcases mem_saveProduct hq with h | h
    · exact h
    · exact absurd hqid h.2
  · intro db pid body prod fp hfind haction hfp hpos q hq hqid
    rw [adminReview_eq_approve db pid body prod fp hfind haction hfp hpos] at hq
    rcases mem_saveProduct hq with h | h
    · subst h; rfl
    · exact absurd hqid h.2

/-- Witness for C8 (amended): editing the concrete listed product to price
650 against mrp 1000 rounds the discount from exactly the claimed formula. -/
theorem C8_amended_witness :
    editDiscount 650 (some 1000) = jsRound (((1000 : Rat) - 650) / 1000 * 100) ∧
    ∀ q ∈ (editPrice [exListedProduct] adminEmail "aaaaaaaaaaaaaaaaaaaaaaaa"
        (some 650) (some 1000)).fst,
      q.id = "aaaaaaaaaaaaaaaaaaaaaaaa" → q = editPriceUpdate exListedProduct 650 (some 1000) :=
  ⟨C8_amended.1 650 1000 (by norm_num) (by norm_num),
   C8_amended.2.2.1 [exListedProduct] "aaaaaaaaaaaaaaaaaaaaaaaa" 650 (some 1000)
     exListedProduct (by decide) (by norm_num) (by decide)⟩

/-- C9: `editPrice` succeeds only for the admin caller, a positive price
and a product whose status is `listed`; it never succeeds without a price;
and every successful call leaves the status unchanged and updates the two
price fields in lockstep: afterwards `admin_review.final_price` equals
`listed_product.price` (both the new price). -/
theorem C9_edit_price_lockstep (db : List Product) (caller pid : String)
    (pr : Rat) (mrp : Option Rat) (prod : Product) (ar : AdminReview)
    (lp : ListedProduct)
    (hfind : db.find? (fun q => q.id = pid) = some prod)
    (har : prod.admin_review = some ar) (hlp : prod.listed_product = some lp) :
    ((editPrice db caller pid (some pr) mrp).snd = .ok →
        caller = adminEmail ∧ 0 < pr ∧ prod.status = Status.listed) ∧
    ((editPrice db caller pid none mrp).snd ≠ .ok) ∧
    ((editPrice db caller pid (some pr) mrp).snd = .ok →
      ∀ q ∈ (editPrice db caller pid (some pr) mrp).fst, q.id = pid →
        q.status = prod.status ∧
        ∃ a l, q.admin_review = some a ∧ q.listed_product = some l ∧
          a.final_price = some l.price ∧ l.price = pr) := by
  refine ⟨?_, ?_, ?_⟩
  · intro hok
    obtain ⟨hcaller, pr2, hpr2, hpos, prod2, hfind2, hstatus2, heq⟩ :=
      editPrice_ok_inv db caller pid (some pr) mrp hok
    injection hpr2 with hpr2e
    subst hpr2e
    rw [hfind] at hfind2
    injection hfind2 with hprode
    subst hprode
    exact ⟨hcaller, hpos, hstatus2⟩
  · unfold editPrice
    by_cases hc : caller ≠ adminEmail
    · rw [if_pos hc]
      exact fun hx => Resp.noConfusion hx
    · rw [if_neg hc]
      exact fun hx => Resp.noConfusion hx
  · intro hok q hq hqid
    obtain ⟨hcaller, pr2, hpr2, hpos, prod2, hfind2, hstatus2, heq⟩ :=
      editPrice_ok_inv db caller pid (some pr) mrp hok
    injection hpr2 with hpr2e
    subst hpr2e
    rw [hfind] at hfind2
    injection hfind2 with hprode
    subst hprode
    rw [heq] at hq
    rcases mem_saveProduct hq with h | h
    · subst h
      refine ⟨rfl, ?_⟩
      let sd : Option Int :=
        if editDiscount pr mrp = 0 then none else some (editDiscount pr mrp)
      refine ⟨{ ar with
                final_price := some pr, mrp := zeroToNone mrp,
                discount_percentage := sd },
              { lp with
                price := pr, mrp := zeroToNone mrp,
                discount_percentage := sd }, ?_, ?_, rfl, rfl⟩
      · show (editPriceUpdate prod pr mrp).admin_review = _
        unfold editPriceUpdate
        dsimp only
        rw [har]
        rfl
      · show (editPriceUpdate prod pr mrp).listed_product = _
        unfold editPriceUpdate
        dsimp only
        rw [hlp]
        rfl
    · exact absurd hqid h.2

/-- Witness for C9: editing the price of the concrete listed product to 700
keeps it listed and keeps `admin_review.final_price = listed_product.price`. -/
theorem C9_edit_price_lockstep_witness :
    ((editPrice [exListedProduct] adminEmail "aaaaaaaaaaaaaaaaaaaaaaaa"
        (some 700) none).snd = .ok →
      adminEmail = adminEmail ∧ (0 : Rat) < 700 ∧ exListedProduct.status = Status.listed) ∧
    ((editPrice [exListedProduct] adminEmail "aaaaaaaaaaaaaaaaaaaaaaaa"
        none none).snd ≠ .ok) ∧
    ((editPrice [exListedProduct] adminEmail "aaaaaaaaaaaaaaaaaaaaaaaa"
        (some 700) none).snd = .ok →
      ∀ q ∈ (editPrice [exListedProduct] adminEmail "aaaaaaaaaaaaaaaaaaaaaaaa"
          (some 700) none).fst, q.id = "aaaaaaaaaaaaaaaaaaaaaaaa" →
        q.status = exListedProduct.status ∧
        ∃ a l, q.admin_review = some a ∧ q.listed_product = some l ∧
          a.final_price = some l.price ∧ l.price = 700) :=
  C9_edit_price_lockstep [exListedProduct] adminEmail "aaaaaaaaaaaaaaaaaaaaaaaa"
    700 none exListedProduct exAdminReview exListedSnapshot (by decide) rfl rfl

/-- C10 counterexample: the claim asserts the admin complete-order override
applies the same unconditional sold update without partitioning out static
identifiers.  On the concrete store whose not-yet-paid order carts the
static id `test-product-1` — not castable to an `ObjectId` — the route does
forward the raw ids, but `Product.updateMany` throws a `CastError`: the
response is the generic 500 failure, not success, no product is updated at
all (none becomes sold), and the order — updated first — is left paid. -/
theorem C10_counterexample :
    isCastableObjectId "test-product-1" = false ∧
    (adminCompleteOrder exDB adminEmail "order1").snd = .error500 ∧
    (adminCompleteOrder exDB adminEmail "order1").snd ≠ .success ∧
    (adminCompleteOrder exDB adminEmail "order1").fst.products = exDB.products ∧
    (∀ q ∈ (adminCompleteOrder exDB adminEmail "order1").fst.products,
        q.status ≠ Status.sold) ∧
    ((adminCompleteOrder exDB adminEmail "order1").fst.orders.map
        (fun o2 => o2.status)) = [OrderStatus.paid] := by decide

/-- C10 (amended): a successful verification marks sold every persisted
product whose id is a well-formed 24-character ObjectId appearing in the
paid cart, unconditionally on the product's prior status (the product
quantifier carries no status hypothesis).  The admin complete-order
override, on an order that is not yet paid, forwards the raw cart ids with
no partitioning: when every cart id is castable to an `ObjectId` (any
12-character string, or 24-hex — no 24-hex well-formedness required and no
status condition) it succeeds and marks every cart-referenced product sold;
when some cart id is not castable the update throws, the route answers the
generic 500 failure, no product is updated, and the order is left paid. -/
theorem C10_unconditional_sold (hmac : String → String) (db : DB)
    (o p sig oid : String) (ord ord2 : Order)
    (hsig : hmac (o ++ "|" ++ p) = sig)
    (hfind : db.orders.find? (fun x => x.razorpayOrderId = o) = some ord)
    (hfind2 : db.orders.find? (fun x => x.id = oid) = some ord2)
    (hnotpaid : ord2.status ≠ .paid) :
    (∀ prod ∈ db.products, isValidObjectId prod.id →
        prod.id ∈ ord.cart.map (fun item => item.productId) →
        { prod with status := Status.sold }
          ∈ (verify hmac db o p sig false).fst.products) ∧
    ((ord2.cart.map (fun item => item.productId)).all
        (fun id => isCastableObjectId id) = true →
      (adminCompleteOrder db adminEmail oid).snd = .success ∧
      ∀ prod ∈ db.products,
        prod.id ∈ ord2.cart.map (fun item => item.productId) →
        { prod with status := Status.sold }
          ∈ (adminCompleteOrder db adminEmail oid).fst.products) ∧
    ((ord2.cart.map (fun item => item.productId)).all
        (fun id => isCastableObjectId id) = false →
      adminCompleteOrder db adminEmail oid
        = ({ products := db.products,
             orders := db.orders.map (fun o2 =>
               if o2.id = oid then
                 { o2 with status := OrderStatus.paid,
                           razorpayPaymentId := some "manual_verification" }
               else o2) }, .error500)) := by
  have hadmin : adminCompleteOrder db adminEmail oid
      = (if (ord2.cart.map (fun item => item.productId)).all
            (fun id => isCastableObjectId id) then
           ({ products := markSoldMany db.products
                  (ord2.cart.map (fun item => item.productId)),
              orders := db.orders.map (fun o2 =>
                if o2.id = oid then
                  { o2 with status := OrderStatus.paid,
                            razorpayPaymentId := some "manual_verification" }
                else o2) }, CompleteResult.success)
         else
           ({ products := db.products,
              orders := db.orders.map (fun o2 =>
                if o2.id = oid then
                  { o2 with status := OrderStatus.paid,
                            razorpayPaymentId := some "manual_verification" }
                else o2) }, CompleteResult.error500)) := by
    unfold adminCompleteOrder
    rw [if_neg (not_not_intro rfl), hfind2]
    dsimp only
    rw [if_neg hnotpaid]
  refine ⟨?_, ?_, ?_⟩
  · intro prod hmem hvalid hcart
    rw [verify_of_match hmac db o p sig ord hsig hfind]
    exact markSoldMany_mem db.products _ prod hmem
      (List.mem_filter.mpr ⟨hcart, hvalid⟩)
  · intro hall
    rw [hadmin, if_pos hall]
    exact ⟨rfl, fun prod hmem hcart => markSoldMany_mem db.products _ prod hmem hcart⟩
  · intro hfalse
    rw [hadmin, hfalse, if_neg Bool.false_ne_true]

/-- Witness for C10 (amended): in the concrete all-castable store the
pending 24-hex product is sold by verification despite not being listed,
and the admin override succeeds and sells both the 24-hex product and the
12-character-id product (which the verify filter would not even forward). -/
theorem C10_unconditional_sold_witness :
    (∀ prod ∈ exDB3.products, isValidObjectId prod.id →
        prod.id ∈ exOrder3.cart.map (fun item => item.productId) →
        { prod with status := Status.sold }
          ∈ (verify hmacId exDB3 "rzp3" "pay3" (hmacId "rzp3|pay3") false).fst.products) ∧
    ((exOrder3.cart.map (fun item => item.productId)).all
        (fun id => isCastableObjectId id) = true →
      (adminCompleteOrder exDB3 adminEmail "order3").snd = .success ∧
      ∀ prod ∈ exDB3.products,
        prod.id ∈ exOrder3.cart.map (fun item => item.productId) →
        { prod with status := Status.sold }
          ∈ (adminCompleteOrder exDB3 adminEmail "order3").fst.products) ∧
    ((exOrder3.cart.map (fun item => item.productId)).all
        (fun id => isCastableObjectId id) = false →
      adminCompleteOrder exDB3 adminEmail "order3"
        = ({ products := exDB3.products,
             orders := exDB3.orders.map (fun o2 =>
               if o2.id = "order3" then
                 { o2 with status := OrderStatus.paid,
                           razorpayPaymentId := some "manual_verification" }
               else o2) }, .error500)) :=
  C10_unconditional_sold hmacId exDB3 "rzp3" "pay3" (hmacId "rzp3|pay3") "order3"
    exOrder3 exOrder3 (by decide) (by decide) (by decide) (by decide)

/-- C5 counterexample: the claim asserts the invariant "`listed_product`
exists iff status ∈ {listed, sold}" is preserved by every operation.  In
the concrete store every product satisfies the invariant (the pending
product has no `listed_product`), yet settling the order whose cart
references the pending product by its 24-hex id leaves a product that
violates it: status `sold` with `listed_product` absent. -/
theorem C5_counterexample :
    (∀ q ∈ exDB.products, listedSnapshotInvariant q) ∧
    ¬ (∀ q ∈ (verify hmacId exDB "rzp1" "pay1" (hmacId "rzp1|pay1") false).fst.products,
        listedSnapshotInvariant q) := by decide

/-- C5 (amended): the invariant "`listed_product` exists iff
status ∈ {listed, sold}" is established by the approve review (which writes
the snapshot as it lists) and preserved by `acceptOffer`, `rejectOffer`
(seller paths, guarded to pending products), `editPrice`, and by settlement
provided every well-formed cart-referenced product is already listed or
sold; it is not preserved unconditionally, because settlement marks
cart-referenced products sold whatever their prior status (see the
counterexample). -/
theorem C5_snapshot_invariant (db : List Product) (hmac : String → String)
    (dbo : DB) (callerId caller pid o p sig : String)
    (pickup payment reason : Option String) (body : ReviewBody)
    (price mrp : Option Rat) (ord : Order)
    (hinv : ∀ q ∈ db, listedSnapshotInvariant q)
    (hinvo : ∀ q ∈ dbo.products, listedSnapshotInvariant q)
    (haction : body.action = some "approve")
    (hsig : hmac (o ++ "|" ++ p) = sig)
    (hfind : dbo.orders.find? (fun x => x.razorpayOrderId = o) = some ord)
    (hguard : ∀ q ∈ dbo.products, isValidObjectId q.id →
        q.id ∈ ord.cart.map (fun item => item.productId) →
        q.status = Status.listed ∨ q.status = Status.sold) :
    (∀ q ∈ (acceptOffer db callerId pid pickup payment).fst,
        listedSnapshotInvariant q) ∧
    (∀ q ∈ (rejectOffer db callerId pid reason).fst, listedSnapshotInvariant q) ∧
    (∀ q ∈ (adminReview db caller pid body).fst, listedSnapshotInvariant q) ∧
    (∀ q ∈ (editPrice db caller pid price mrp).fst, listedSnapshotInvariant q) ∧
    (∀ q ∈ (verify hmac dbo o p sig false).fst.products,
        listedSnapshotInvariant q) :=
  ⟨acceptOffer_preserves_inv db callerId pid pickup payment hinv,
   rejectOffer_preserves_inv db callerId pid reason hinv,
   adminReview_approve_preserves_inv db caller pid body haction hinv,
   editPrice_preserves_inv db caller pid price mrp hinv,
   verify_preserves_inv hmac dbo o p sig ord hsig hfind hinvo hguard⟩

/-- Witness for C5 (amended) at the concrete stores: reviewing/approving,
editing and settling the listed product all preserve the invariant. -/
theorem C5_snapshot_invariant_witness :
    (∀ q ∈ (acceptOffer [exListedProduct] "seller1" "aaaaaaaaaaaaaaaaaaaaaaaa"
        (some "pickup") (some "payment")).fst, listedSnapshotInvariant q) ∧
    (∀ q ∈ (rejectOffer [exListedProduct] "seller1" "aaaaaaaaaaaaaaaaaaaaaaaa"
        none).fst, listedSnapshotInvariant q) ∧
    (∀ q ∈ (adminReview [exListedProduct] adminEmail "aaaaaaaaaaaaaaaaaaaaaaaa"
        exBody).fst, listedSnapshotInvariant q) ∧
    (∀ q ∈ (editPrice [exListedProduct] adminEmail "aaaaaaaaaaaaaaaaaaaaaaaa"
        (some 700) none).fst, listedSnapshotInvariant q) ∧
    (∀ q ∈ (verify hmacId exListedDB "rzp1" "pay1" (hmacId "rzp1|pay1")
        false).fst.products, listedSnapshotInvariant q) :=
  C5_snapshot_invariant [exListedProduct] hmacId exListedDB "seller1" adminEmail
    "aaaaaaaaaaaaaaaaaaaaaaaa" "rzp1" "pay1" (hmacId "rzp1|pay1")
    (some "pickup") (some "payment") none exBody (some 700) none exOrder
    (by decide) (by decide) (by decide) (by decide) (by decide) (by decide)

end Retag
